import Mathlib

/-!
Verification of the column classification, filtering, target derivation,
statistics and imputation logic of `copper/core/set.py` (class `Dataset`),
via a shallow embedding in Lean.

A pandas `DataFrame` is modelled as an ordered list of named columns, each
column carrying its storage dtype and a list of cells; a cell is either a
value (number or text) or missing (`NaN`).  The two classification series
`role` and `type` are modelled as association lists in column order, and
label-based pandas assignment (`series[labels] = value`) is modelled by
`setLabels`.
-/

unseal Rat.mul Rat.inv Rat.add Rat.sub

namespace Copper

/-- A non-missing cell value: a number (int/float, modelled as `ℚ`) or text. -/
inductive Val
  | num (q : ℚ)
  | str (s : String)
deriving DecidableEq

/-- A cell of a column: `none` models a missing entry (pandas `NaN`). -/
abbrev Cell := Option Val

/-- The storage dtype of a column: `np.int64`, `np.float64` or `object`. -/
inductive Dtype
  | int64
  | float64
  | obj
deriving DecidableEq

/-- A column: its storage dtype together with its cells, in row order. -/
structure Col where
  dtype : Dtype
  cells : List Cell
deriving DecidableEq

/-- A DataFrame: the row count (`len(frame)`) and the named columns in
column order.  Well-formed frames have `cells.length = nrows` in every
column; the embedding keeps `nrows` explicit because `percent_missing`
divides by `len(self.frame)`. -/
structure Frame where
  nrows : ℕ
  cols : List (String × Col)
deriving DecidableEq

/-- The column roles (`Dataset.ID`, `Dataset.INPUT`, `Dataset.TARGET`,
`Dataset.REJECTED`). -/
inductive Role
  | ID
  | input
  | target
  | rejected
deriving DecidableEq

/-- The column types (`Dataset.NUMBER`, `Dataset.CATEGORY`). -/
inductive Ty
  | number
  | category
deriving DecidableEq

/-- `self.frame.columns.values`: the column names in order. -/
def Frame.names (f : Frame) : List String := f.cols.map Prod.fst

/-- Label lookup in a DataFrame (`self.frame[name]`): the first column with
that name, if any. -/
def Frame.lookupCol (f : Frame) (n : String) : Option Col :=
  (f.cols.find? (fun p => p.1 == n)).map Prod.snd

/-- Label lookup in one of the metadata series (`self.role[name]`,
`self.type[name]`). -/
def lookupL {β : Type} (m : List (String × β)) (n : String) : Option β :=
  (m.find? (fun p => p.1 == n)).map Prod.snd

/-- ASCII lowering of one character, as Python `str.lower()` does on the
ASCII column names the classifier compares against. -/
def charLower (c : Char) : Char :=
  if 'A' ≤ c ∧ c ≤ 'Z' then Char.ofNat (c.toNat + 32) else c

/-- Python `col_name.lower()` (ASCII). -/
def strLower (s : String) : String := ⟨s.data.map charLower⟩

/-- `Dataset._id_identifier`: `col_name.lower() in ['id']`. -/
def id_identifier (col_name : String) : Bool :=
  strLower col_name ∈ (["id"] : List String)

/-- `Dataset._target_identifier`: `col_name.lower() in ['target']`. -/
def target_identifier (col_name : String) : Bool :=
  strLower col_name ∈ (["target"] : List String)

/-- `self.frame[col].count()`: the number of non-missing cells. -/
def countNonMissing (c : Col) : ℕ := (c.cells.filterMap id).length

/-- The fraction `1 - count/len(frame)` computed (per column) by
`Dataset.percent_missing`. -/
def missingRatio (f : Frame) (c : Col) : ℚ :=
  1 - (countNonMissing c : ℚ) / (f.nrows : ℚ)

/-- The unsorted series underlying `Dataset.percent_missing`:
`1 - self.frame.count() / len(self.frame)`, one entry per column in
column order. -/
def percentMissingRaw (f : Frame) : List (String × ℚ) :=
  f.cols.map (fun p => (p.1, missingRatio f p.2))

/-- `pandas.Series.order(ascending=...)`: sort the series by value.  The
sort is stable, so ties keep column order. -/
def seriesOrder {α : Type} [LinearOrder α] (l : List (String × α))
    (ascending : Bool) : List (String × α) :=
  if ascending then l.insertionSort (fun a b => a.2 ≤ b.2)
  else l.insertionSort (fun a b => b.2 ≤ a.2)

/-- `Dataset.percent_missing(ascending)`:
`(1 - (self.frame.count() / len(self.frame))).order(ascending=ascending)`. -/
def percent_missing (f : Frame) (ascending : Bool) : List (String × ℚ) :=
  seriesOrder (percentMissingRaw f) ascending

/-- The distinct observed values of a list, in first-occurrence order (the
index order `pandas.Series.value_counts` starts from before sorting). -/
def distinctFirstOcc (l : List Val) : List Val :=
  l.foldl (fun acc v => if v ∈ acc then acc else acc ++ [v]) []

/-- `self.frame[col].value_counts()`: the distinct non-missing values with
their multiplicities, sorted by descending count; the sort is stable, so
ties keep first-occurrence order. -/
def value_counts (c : Col) : List (Val × ℕ) :=
  let obs := c.cells.filterMap id
  ((distinctFirstOcc obs).map (fun v => (v, obs.count v))).insertionSort
    (fun a b => b.2 ≤ a.2)

/-- The unsorted series underlying `Dataset.unique_values`:
`len(self.frame[col].value_counts())` per column, in column order. -/
def uniqueValuesRaw (f : Frame) : List (String × ℕ) :=
  f.cols.map (fun p => (p.1, (value_counts p.2).length))

/-- `Dataset.unique_values(ascending)`. -/
def unique_values (f : Frame) (ascending : Bool) : List (String × ℕ) :=
  seriesOrder (uniqueValuesRaw f) ascending

/-- Label-based assignment into a metadata series
(`series[labels] = value`): every entry whose name is among `labels` is
overwritten. -/
def setLabels (m : List (String × Option Role)) (labels : List String)
    (r : Role) : List (String × Option Role) :=
  m.map (fun p => if p.1 ∈ labels then (p.1, some r) else p)

/-- The labels selected by
`self.percent_missing()[self.percent_missing() > 0.5].index` in
`set_frame`. -/
def rejectedNames (f : Frame) : List String :=
  ((percent_missing f false).filter (fun p => decide (p.2 > 1/2))).map Prod.fst

/-- The role series built by `Dataset.set_frame`: start from an all-missing
series indexed by the columns, assign `'ID'` to the name-matched id
columns, `TARGET` to the first name-matched target column and `REJECTED`
to the remaining ones, overwrite with `REJECTED` every column whose
missing fraction exceeds 0.5, and fill the untouched entries with
`INPUT`. -/
def set_frame_role (f : Frame) : List (String × Role) :=
  let columns := f.names
  let init : List (String × Option Role) := columns.map (fun n => (n, none))
  let id_cols := columns.filter (fun n => id_identifier n)
  let m1 := setLabels init id_cols Role.ID
  let target_cols := columns.filter (fun n => target_identifier n)
  let m2 :=
    match target_cols with
    | [] => m1
    | t :: ts => setLabels (setLabels m1 [t] Role.target) ts Role.rejected
  let m3 := setLabels m2 (rejectedNames f) Role.rejected
  m3.map (fun p => (p.1, p.2.getD Role.input))

/-- The type series built by `Dataset.set_frame`: columns whose dtype is
`np.int64` or `np.float64` are `NUMBER`, the rest are filled with
`CATEGORY`. -/
def set_frame_type (f : Frame) : List (String × Ty) :=
  let columns := f.names
  let number_cols := columns.filter (fun n =>
    match f.lookupCol n with
    | some c => c.dtype = Dtype.int64 ∨ c.dtype = Dtype.float64
    | none => false)
  columns.map (fun n => (n, if n ∈ number_cols then Ty.number else Ty.category))

/-- The `Dataset` state touched by the claims: the frame, the cached
`self.columns`, and the two metadata series. -/
structure Dataset where
  frame : Frame
  columns : List String
  role : List (String × Role)
  type : List (String × Ty)
deriving DecidableEq

/-- `Dataset.set_frame(dataframe)`: store the frame, cache its column
names, and rebuild both metadata series. -/
def set_frame (f : Frame) : Dataset :=
  { frame := f
    columns := f.names
    role := set_frame_role f
    type := set_frame_type f }

/-- `Dataset.filter(role, type, columns=True)`: boolean-mask
`self.columns` by the role series and by the type series (an omitted
argument masks nothing), then keep, in column order, the columns present
in both masks. -/
def Dataset.filter (ds : Dataset) (role : Option Role) (type : Option Ty) :
    List String :=
  let role_cols :=
    match role with
    | none => ds.columns
    | some r => (ds.columns.zip (ds.role.map Prod.snd)).filterMap
        (fun (p : String × Role) => if p.2 = r then some p.1 else none)
  let type_cols :=
    match type with
    | none => ds.columns
    | some t => (ds.columns.zip (ds.type.map Prod.snd)).filterMap
        (fun (p : String × Ty) => if p.2 = t then some p.1 else none)
  ds.columns.filter (fun c => c ∈ role_cols ∧ c ∈ type_cols)

/-- Failures of `Dataset.get_target`: `noTargetColumn` is the `IndexError`
raised by `[0]` on the empty filter result (the spec's `NoTargetColumn`),
`keyError` a failed frame lookup. -/
inductive DErr
  | noTargetColumn
  | keyError
deriving DecidableEq

/-- Modelled from the spec: `copper.transform.category2number` lives in
`copper/transform.py`, which is not part of this repository slice.  Per
the spec (section 4.3, `target`), it is a categorical-to-numeric encoding:
a stable mapping from distinct observed levels to integer codes, with
assignment order = first-occurrence order, applied if the column is not
already numeric. -/
def category2number (c : Col) : Col :=
  if c.dtype = Dtype.int64 ∨ c.dtype = Dtype.float64 then c
  else
    let levels := distinctFirstOcc (c.cells.filterMap id)
    { dtype := Dtype.int64
      cells := c.cells.map (fun cell =>
        cell.map (fun v => Val.num ((levels.indexOf v : ℕ) : ℚ))) }

/-- `Dataset.get_target`:
`col = self.filter(role=self.TARGET, columns=True)[0]` followed by
`copper.transform.category2number(self.frame[col])`. -/
def Dataset.get_target (ds : Dataset) : Except DErr Col :=
  match ds.filter (some Role.target) none with
  | [] => .error DErr.noTargetColumn
  | col :: _ =>
    match ds.frame.lookupCol col with
    | none => .error DErr.keyError
    | some c => .ok (category2number c)

/-- Failures of `Dataset.fillna`: a failed label lookup (`KeyError`) or
`value_counts().index[0]` on a column with no observed value
(`IndexError`). -/
inductive FillErr
  | keyError
  | indexError
deriving DecidableEq

/-- `self[col].mean()`: the arithmetic mean of the numeric entries,
skipping missing ones as pandas does; `none` models the `NaN` mean of a
column with no numeric entry. -/
def colMean (c : Col) : Option ℚ :=
  let nums := c.cells.filterMap (fun cell =>
    match cell with
    | some (Val.num q) => some q
    | _ => none)
  if nums.length = 0 then none else some (nums.sum / (nums.length : ℚ))

/-- `self[col].fillna(value=v)`: replace every missing cell by `v`,
leaving non-missing cells (and the dtype) unchanged. -/
def fillCol (c : Col) (v : Val) : Col :=
  { c with cells := c.cells.map (fun cell => some (cell.getD v)) }

/-- `self.frame[name] = col` (pandas `__setitem__`): overwrite the column
if the name exists, else append it. -/
def Frame.setCol (f : Frame) (n : String) (c : Col) : Frame :=
  if n ∈ f.names then
    { f with cols := f.cols.map (fun p => if p.1 = n then (n, c) else p) }
  else { f with cols := f.cols ++ [(n, c)] }

/-- One iteration of the `mean`/`mode` loop of `Dataset.fillna`: look the
column's type up, take the column's mean (`NUMBER`) or the head of its
`value_counts` index (`CATEGORY`), and write the `fillna` result back.
pandas `fillna(value=NaN)` is a no-op, hence the `colMean = none` case. -/
def meanModeStep (type : List (String × Ty)) (f : Frame) (col : String) :
    Except FillErr Frame :=
  match lookupL type col with
  | none => .error FillErr.keyError
  | some t =>
    match f.lookupCol col with
    | none => .error FillErr.keyError
    | some c =>
      match t with
      | Ty.number =>
        match colMean c with
        | some m => .ok (f.setCol col (fillCol c (Val.num m)))
        | none => .ok (f.setCol col c)
      | Ty.category =>
        match (value_counts c).head? with
        | some p => .ok (f.setCol col (fillCol c p.1))
        | none => .error FillErr.indexError

/-- `Dataset.fillna(cols, method)`.  `imputeKNN` models the external
collaborator `copper.r.imputeKNN`.  A method other than `'mean'`,
`'mode'` and `'knn'` matches no branch: the call returns with nothing
changed. -/
def Dataset.fillna (ds : Dataset) (cols : Option (List String))
    (method : String) (imputeKNN : Frame → Frame) : Except FillErr Dataset :=
  let cs := cols.getD ds.columns
  if method = "mean" ∨ method = "mode" then
    (cs.foldlM (meanModeStep ds.type) ds.frame).map
      (fun f => { ds with frame := f })
  else if method = "knn" then
    (cs.foldlM (fun (f : Frame) (col : String) =>
        (match (imputeKNN f).lookupCol col with
          | none => .error FillErr.keyError
          | some ic => .ok (f.setCol col ic) : Except FillErr Frame))
      ds.frame).map
      (fun f => { ds with frame := f })
  else .ok ds

/-! ### Lookup infrastructure -/

theorem lookupL_mapVal {β γ : Type} (m : List (String × β)) (g : String → β → γ)
    (n : String) :
    lookupL (m.map (fun p => (p.1, g p.1 p.2))) n = (lookupL m n).map (g n) := by
  induction m with
  | nil => rfl
  | cons p m ih =>
    by_cases h : p.1 = n
    · subst h
      simp [lookupL, List.find?]
    · simp only [lookupL, List.map_cons, List.find?] at *
      have hb : (p.1 == n) = false := by simp [h]
      simp only [hb] at *
      exact ih

theorem lookupL_mem {β : Type} {m : List (String × β)} {n : String} {b : β}
    (h : lookupL m n = some b) : (n, b) ∈ m := by
  induction m with
  | nil => simp [lookupL] at h
  | cons p m ih =>
    by_cases hp : p.1 = n
    · subst hp
      simp [lookupL, List.find?] at h
      simp [← h]
    · simp only [lookupL, List.find?] at h
      have hb : (p.1 == n) = false := by simp [hp]
      simp only [hb] at h
      exact List.mem_cons_of_mem _ (ih h)

theorem lookupL_eq_some_iff {β : Type} {m : List (String × β)}
    (hnd : (m.map Prod.fst).Nodup) (n : String) (b : β) :
    lookupL m n = some b ↔ (n, b) ∈ m := by
  constructor
  · exact lookupL_mem
  · intro hmem
    induction m with
    | nil => simp at hmem
    | cons p m ih =>
      simp only [List.map_cons, List.nodup_cons] at hnd
      rcases List.mem_cons.1 hmem with h | h
      · subst h
        simp [lookupL, List.find?]
      · have hne : p.1 ≠ n := by
          intro he
          exact hnd.1 (he ▸ (List.mem_map.2 ⟨(n, b), h, rfl⟩))
        have hb : (p.1 == n) = false := by simp [hne]
        simp only [lookupL, List.find?, hb]
        exact ih hnd.2 h

theorem lookupL_eq_none_iff {β : Type} (m : List (String × β)) (n : String) :
    lookupL m n = none ↔ n ∉ m.map Prod.fst := by
  induction m with
  | nil => simp [lookupL]
  | cons p m ih =>
    by_cases hp : p.1 = n
    · subst hp
      simp [lookupL, List.find?]
    · have hb : (p.1 == n) = false := by simp [hp]
      simp only [lookupL, List.find?, hb, List.map_cons, List.mem_cons]
      simp only [lookupL] at ih
      rw [ih]
      constructor
      · intro h
        rintro (h1 | h2)
        · exact hp h1.symm
        · exact h h2
      · intro h h2
        exact h (Or.inr h2)

theorem zip_fst_snd {β : Type} (l : List (String × β)) :
    (l.map Prod.fst).zip (l.map Prod.snd) = l := by
  induction l with
  | nil => rfl
  | cons p l ih => simp [ih]

/-! ### Characterizing the role series built by `set_frame` -/

theorem setLabels_eq_mapVal (m : List (String × Option Role))
    (labels : List String) (r : Role) :
    setLabels m labels r =
      m.map (fun p => (p.1, if p.1 ∈ labels then some r else p.2)) := by
  unfold setLabels
  apply List.map_congr_left
  intro p _
  by_cases h : p.1 ∈ labels <;> simp [h]

theorem lookupL_setLabels (m : List (String × Option Role))
    (labels : List String) (r : Role) (n : String) :
    lookupL (setLabels m labels r) n =
      (lookupL m n).map (fun b => if n ∈ labels then some r else b) := by
  rw [setLabels_eq_mapVal]
  exact lookupL_mapVal m (fun a b => if a ∈ labels then some r else b) n

theorem lookupL_init (cs : List String) (n : String) :
    lookupL (cs.map (fun m => (m, (none : Option Role)))) n =
      if n ∈ cs then some none else none := by
  induction cs with
  | nil => simp [lookupL]
  | cons c cs ih =>
    by_cases hc : c = n
    · subst hc
      simp [lookupL, List.find?]
    · have hb : (c == n) = false := by simp [hc]
      have hnc : ¬n = c := fun h => hc h.symm
      simp only [List.map_cons, lookupL, List.find?, hb, List.mem_cons]
      simp only [lookupL] at ih
      rw [ih]
      by_cases hn : n ∈ cs
      · simp [hn]
      · simp [hn, hnc]

/-- The per-column role that `set_frame` ends up assigning: the
missing-ratio override wins, then the target rule, then the id rule, and
`INPUT` if nothing applied. -/
def roleAfter (f : Frame) (n : String) : Role :=
  let base : Option Role := if id_identifier n then some Role.ID else none
  let base2 : Option Role :=
    match f.names.filter (fun m => target_identifier m) with
    | [] => base
    | t :: ts =>
      if n ∈ ts then some Role.rejected
      else if n ∈ [t] then some Role.target else base
  let base3 : Option Role :=
    if n ∈ rejectedNames f then some Role.rejected else base2
  base3.getD Role.input

theorem set_frame_role_lookup (f : Frame) (n : String) (hn : n ∈ f.names) :
    lookupL (set_frame_role f) n = some (roleAfter f n) := by
  unfold set_frame_role roleAfter
  dsimp only
  cases hT : f.names.filter (fun m => target_identifier m) with
  | nil =>
    rw [lookupL_mapVal _ (fun a b => Option.getD b Role.input),
      lookupL_setLabels, lookupL_setLabels, lookupL_init, if_pos hn]
    simp only [Option.map_some]
    by_cases h1 : id_identifier n <;>
      by_cases h2 : n ∈ rejectedNames f <;>
        simp [h1, h2, hn, List.mem_filter]
  | cons t ts =>
    rw [lookupL_mapVal _ (fun a b => Option.getD b Role.input),
      lookupL_setLabels, lookupL_setLabels, lookupL_setLabels,
      lookupL_setLabels, lookupL_init, if_pos hn]
    simp only [Option.map_some]
    by_cases h1 : id_identifier n <;>
      by_cases h2 : n ∈ rejectedNames f <;>
        by_cases h3 : n ∈ ts <;>
          by_cases h4 : n = t <;>
            simp [h1, h2, h3, h4, hn, List.mem_filter]

theorem mem_rejectedNames_iff (f : Frame) (n : String) :
    n ∈ rejectedNames f ↔
      ∃ c, (n, c) ∈ f.cols ∧ missingRatio f c > 1/2 := by
  unfold rejectedNames percent_missing seriesOrder
  simp only [if_neg (Bool.false_ne_true)]
  constructor
  · intro h
    rcases List.mem_map.1 h with ⟨p, hp, hfst⟩
    rcases List.mem_filter.1 hp with ⟨hmem, hgt⟩
    have hmem' : p ∈ percentMissingRaw f :=
      (List.perm_insertionSort _ _).mem_iff.1 hmem
    rcases List.mem_map.1 hmem' with ⟨q, hq, hpq⟩
    refine ⟨q.2, ?_, ?_⟩
    · simpa [← hfst, ← hpq] using hq
    · have : decide (p.2 > 1/2) = true := hgt
      have := of_decide_eq_true this
      simpa [← hpq] using this
  · rintro ⟨c, hmem, hgt⟩
    apply List.mem_map.2
    refine ⟨(n, missingRatio f c), ?_, rfl⟩
    apply List.mem_filter.2
    constructor
    · apply (List.perm_insertionSort _ _).mem_iff.2
      exact List.mem_map.2 ⟨(n, c), hmem, rfl⟩
    · exact decide_eq_true hgt

/-! ### C1-C4: classification claims -/

/-- C1: after `set_frame`, every column whose fraction of missing entries
exceeds 0.5 ends with role `Rejected`, even when its name
case-insensitively equals `'id'` or `'target'`: the missing-ratio rule is
applied after the name-based rules and unconditionally reclassifies such
columns. -/
theorem C1_missing_over_half_rejected (f : Frame)
    (hnd : f.names.Nodup) (hrows : 0 < f.nrows)
    (n : String) (c : Col) (hmem : (n, c) ∈ f.cols)
    (hmiss : missingRatio f c > 1/2) :
    lookupL (set_frame_role f) n = some Role.rejected := by
  have hn : n ∈ f.names := List.mem_map.2 ⟨(n, c), hmem, rfl⟩
  rw [set_frame_role_lookup f n hn]
  have hrej : n ∈ rejectedNames f :=
    (mem_rejectedNames_iff f n).2 ⟨c, hmem, hmiss⟩
  unfold roleAfter
  simp [hrej]

/-- Witness for C1: a column literally named `"id"` with 2 of 3 entries
missing is nevertheless classified `Rejected`. -/
theorem C1_witness :
    ([("id", Col.mk Dtype.float64 [none, none, some (Val.num 1)])] :
        List (String × Col)).Nodup ∧
    lookupL
      (set_frame_role
        (Frame.mk 3 [("id", Col.mk Dtype.float64 [none, none, some (Val.num 1)])]))
      "id" = some Role.rejected := by
  refine ⟨by decide, ?_⟩
  exact C1_missing_over_half_rejected
    (Frame.mk 3 [("id", Col.mk Dtype.float64 [none, none, some (Val.num 1)])])
    (by decide) (by decide) "id"
    (Col.mk Dtype.float64 [none, none, some (Val.num 1)])
    (by decide) (by decide)

theorem mem_pairs_unique {β : Type} {l : List (String × β)}
    (hnd : (l.map Prod.fst).Nodup) {n : String} {b b' : β}
    (h : (n, b) ∈ l) (h' : (n, b') ∈ l) : b = b' := by
  have e1 := (lookupL_eq_some_iff hnd n b).2 h
  have e2 := (lookupL_eq_some_iff hnd n b').2 h'
  rw [e1] at e2
  exact (Option.some.injEq b b').mp e2

theorem id_not_target {n : String} (hid : id_identifier n = true) :
    target_identifier n = false := by
  unfold id_identifier at hid
  unfold target_identifier
  simp only [List.mem_singleton, decide_eq_true_eq] at hid
  simp [hid]

/-- C2 (counterexample): a column named `"ID"` (which the id heuristic
matches) with every entry missing ends with role `Rejected`, not
`Identifier` — the missing-ratio rule overrides the name rule, so the
claim "regardless of the column's content" is false. -/
theorem C2_counterexample :
    id_identifier "ID" = true ∧
    lookupL
        (set_frame (Frame.mk 2 [("ID", Col.mk Dtype.float64 [none, none])])).role
        "ID" = some Role.rejected ∧
    Role.rejected ≠ Role.ID :=
  ⟨by decide, by decide, by decide⟩

/-- C2 (amended): after `set_frame`, every column whose name
case-insensitively equals `'id'` receives role `Identifier` regardless of
its content, provided its fraction of missing entries does not exceed
0.5 (a higher missing fraction reclassifies it to `Rejected`, see C1). -/
theorem C2_id_column_identifier (f : Frame) (hnd : f.names.Nodup)
    (n : String) (c : Col) (hmem : (n, c) ∈ f.cols)
    (hid : id_identifier n = true)
    (hmiss : missingRatio f c ≤ 1/2) :
    lookupL (set_frame f).role n = some Role.ID := by
  have hn : n ∈ f.names := List.mem_map.2 ⟨(n, c), hmem, rfl⟩
  show lookupL (set_frame_role f) n = some Role.ID
  rw [set_frame_role_lookup f n hn]
  have hrej : n ∉ rejectedNames f := by
    intro h
    rcases (mem_rejectedNames_iff f n).1 h with ⟨c', hmem', hgt⟩
    have : c' = c := mem_pairs_unique hnd hmem' hmem
    subst this
    exact absurd hgt (not_lt.2 hmiss)
  have htg : target_identifier n = false := id_not_target hid
  unfold roleAfter
  cases hT : f.names.filter (fun m => target_identifier m) with
  | nil => simp [hid, hrej]
  | cons t ts =>
    have hts : n ∉ ts := by
      intro h
      have : n ∈ f.names.filter (fun m => target_identifier m) := by
        rw [hT]; exact List.mem_cons_of_mem _ h
      have := (List.mem_filter.1 this).2
      rw [htg] at this
      exact Bool.false_ne_true this
    have hnt : n ≠ t := by
      intro h
      have : t ∈ f.names.filter (fun m => target_identifier m) := by
        rw [hT]; exact List.mem_cons_self t ts
      have := (List.mem_filter.1 this).2
      rw [← h, htg] at this
      exact Bool.false_ne_true this
    simp [hid, hrej, hts, hnt]

/-- Witness for C2 (amended): a column named `"ID"` with exactly half of
its entries missing keeps role `Identifier`. -/
theorem C2_witness :
    missingRatio (Frame.mk 2 [("ID", Col.mk Dtype.float64 [some (Val.num 1), none])])
        (Col.mk Dtype.float64 [some (Val.num 1), none]) ≤ 1/2 ∧
    lookupL
        (set_frame (Frame.mk 2 [("ID", Col.mk Dtype.float64 [some (Val.num 1), none])])).role
        "ID" = some Role.ID := by
  refine ⟨by decide, ?_⟩
  exact C2_id_column_identifier
    (Frame.mk 2 [("ID", Col.mk Dtype.float64 [some (Val.num 1), none])])
    (by decide) "ID" (Col.mk Dtype.float64 [some (Val.num 1), none])
    (by decide) (by decide) (by decide)

/-- C3: after `set_frame` on a table with two or more columns whose names
case-insensitively equal `'target'`, the first such column (in column
order) receives role `Target` and every subsequent one receives role
`Rejected`, provided none of them exceeds the 50% missing-ratio
threshold. -/
theorem C3_multiple_target_columns (f : Frame) (hnd : f.names.Nodup)
    (t : String) (ts : List String)
    (hT : f.names.filter (fun m => target_identifier m) = t :: ts)
    (hmiss : ∀ n c, (n, c) ∈ f.cols → target_identifier n = true →
      missingRatio f c ≤ 1/2) :
    lookupL (set_frame f).role t = some Role.target ∧
    ∀ u ∈ ts, lookupL (set_frame f).role u = some Role.rejected := by
  have hrej : ∀ m : String, target_identifier m = true → m ∉ rejectedNames f := by
    intro m htgt h
    rcases (mem_rejectedNames_iff f m).1 h with ⟨c', hmem', hgt⟩
    exact absurd hgt (not_lt.2 (hmiss m c' hmem' htgt))
  constructor
  · have htmem : t ∈ f.names.filter (fun m => target_identifier m) := by
      rw [hT]; exact List.mem_cons_self t ts
    have ht1 : t ∈ f.names := (List.mem_filter.1 htmem).1
    have ht2 : target_identifier t = true := by
      simpa using (List.mem_filter.1 htmem).2
    have hts : t ∉ ts := by
      have : (t :: ts).Nodup := hT ▸ hnd.filter _
      exact (List.nodup_cons.1 this).1
    show lookupL (set_frame_role f) t = some Role.target
    rw [set_frame_role_lookup f t ht1]
    unfold roleAfter
    rw [hT]
    simp [hts, hrej t ht2]
  · intro u hu
    have humem : u ∈ f.names.filter (fun m => target_identifier m) := by
      rw [hT]; exact List.mem_cons_of_mem _ hu
    have hu1 : u ∈ f.names := (List.mem_filter.1 humem).1
    show lookupL (set_frame_role f) u = some Role.rejected
    rw [set_frame_role_lookup f u hu1]
    unfold roleAfter
    rw [hT]
    by_cases h2 : u ∈ rejectedNames f <;> simp [h2, hu]

/-- Witness for C3: columns named `"Target"` then `"target"` with no
missing entries; the first gets role `Target`, the second `Rejected`. -/
theorem C3_witness :
    lookupL
        (set_frame (Frame.mk 2
          [("Target", Col.mk Dtype.float64 [some (Val.num 1), some (Val.num 0)]),
           ("target", Col.mk Dtype.float64 [some (Val.num 0), some (Val.num 1)])])).role
        "Target" = some Role.target ∧
    lookupL
        (set_frame (Frame.mk 2
          [("Target", Col.mk Dtype.float64 [some (Val.num 1), some (Val.num 0)]),
           ("target", Col.mk Dtype.float64 [some (Val.num 0), some (Val.num 1)])])).role
        "target" = some Role.rejected := by
  have h := C3_multiple_target_columns
    (Frame.mk 2
      [("Target", Col.mk Dtype.float64 [some (Val.num 1), some (Val.num 0)]),
       ("target", Col.mk Dtype.float64 [some (Val.num 0), some (Val.num 1)])])
    (by decide) "Target" ["target"] (by decide)
    (by
      intro n c hmem htgt
      rcases List.mem_cons.1 hmem with h | h
      · injection h with h1 h2
        subst h1; subst h2; decide
      · rcases List.mem_cons.1 h with h | h
        · injection h with h1 h2
          subst h1; subst h2; decide
        · simp at h)
  exact ⟨h.1, h.2 "target" (List.mem_singleton.2 rfl)⟩

theorem map_fst_mapVal {β γ : Type} (m : List (String × β))
    (g : String → β → γ) :
    (m.map (fun p => (p.1, g p.1 p.2))).map Prod.fst = m.map Prod.fst := by
  rw [List.map_map]
  apply List.map_congr_left
  intro p _
  rfl

theorem setLabels_map_fst (m : List (String × Option Role))
    (labels : List String) (r : Role) :
    (setLabels m labels r).map Prod.fst = m.map Prod.fst := by
  rw [setLabels_eq_mapVal]
  exact map_fst_mapVal m (fun a b => if a ∈ labels then some r else b)

theorem set_frame_role_map_fst (f : Frame) :
    (set_frame_role f).map Prod.fst = f.names := by
  have hinit : ((f.names.map (fun n => (n, (none : Option Role)))).map
      Prod.fst) = f.names := by
    rw [List.map_map]
    have hcomp : (Prod.fst ∘ fun (n : String) => (n, (none : Option Role)))
        = id := rfl
    rw [hcomp, List.map_id]
  unfold set_frame_role
  dsimp only
  rw [map_fst_mapVal _ (fun a b => Option.getD b Role.input), setLabels_map_fst]
  cases f.names.filter (fun m => target_identifier m) with
  | nil =>
    dsimp only
    rw [setLabels_map_fst, hinit]
  | cons t ts =>
    dsimp only
    rw [setLabels_map_fst, setLabels_map_fst, setLabels_map_fst, hinit]

theorem map_fst_tag {γ : Type} (cs : List String) (h : String → γ) :
    (cs.map (fun n => (n, h n))).map Prod.fst = cs := by
  rw [List.map_map]
  have hcomp : (Prod.fst ∘ fun (n : String) => (n, h n)) = id := rfl
  rw [hcomp, List.map_id]

theorem set_frame_type_map_fst (f : Frame) :
    (set_frame_type f).map Prod.fst = f.names := by
  unfold set_frame_type
  dsimp only
  exact map_fst_tag f.names _

/-- C4: immediately after `set_frame`, the key sequences of the role map
and the type map are both exactly the table's column names (no missing
and no extra entries), and every entry carries exactly one role from the
four roles and one type from the two types. -/
theorem C4_metadata_keys (f : Frame) :
    (set_frame f).role.map Prod.fst = f.names ∧
    (set_frame f).type.map Prod.fst = f.names ∧
    (∀ p ∈ (set_frame f).role,
      p.2 = Role.ID ∨ p.2 = Role.input ∨ p.2 = Role.target ∨
        p.2 = Role.rejected) ∧
    (∀ p ∈ (set_frame f).type, p.2 = Ty.number ∨ p.2 = Ty.category) := by
  refine ⟨set_frame_role_map_fst f, set_frame_type_map_fst f, ?_, ?_⟩
  · intro p _
    cases p.2 <;> simp
  · intro p _
    cases p.2 <;> simp

/-! ### C5: filter -/

theorem mem_mask {β : Type} [DecidableEq β] (cols : List String)
    (m : List (String × β)) (hm : m.map Prod.fst = cols) (hnd : cols.Nodup)
    (r : β) (c : String) :
    (c ∈ (cols.zip (m.map Prod.snd)).filterMap
        (fun (p : String × β) => if p.2 = r then some p.1 else none)) ↔
      lookupL m c = some r := by
  subst hm
  rw [zip_fst_snd]
  constructor
  · intro h
    rcases List.mem_filterMap.1 h with ⟨p, hp, hcond⟩
    by_cases he : p.2 = r
    · rw [if_pos he] at hcond
      have h1 : p.1 = c := (Option.some.injEq _ _).mp hcond
      have hpc : (c, r) ∈ m := by
        have : p = (c, r) := by
          rw [← h1, ← he]
        exact this ▸ hp
      exact (lookupL_eq_some_iff hnd c r).2 hpc
    · rw [if_neg he] at hcond
      cases hcond
  · intro h
    exact List.mem_filterMap.2 ⟨(c, r), lookupL_mem h, by simp⟩

/-- C5: `filter(role?, type?)` returns exactly the columns whose current
role equals the given role (any role if omitted) and whose current type
equals the given type (any type if omitted), in the original column
order (a stable sub-sequence of `columns`, not resorted); in particular
`filter()` with no arguments returns all columns in column order. -/
theorem C5_filter_semantics (ds : Dataset)
    (hr : ds.role.map Prod.fst = ds.columns)
    (ht : ds.type.map Prod.fst = ds.columns)
    (hnd : ds.columns.Nodup)
    (role : Option Role) (type : Option Ty) :
    (ds.filter role type = ds.columns.filter (fun c =>
      (match role with
       | none => true
       | some r => decide (lookupL ds.role c = some r)) &&
      (match type with
       | none => true
       | some t => decide (lookupL ds.type c = some t)))) ∧
    ds.filter none none = ds.columns := by
  have main : ∀ (ro : Option Role) (ty : Option Ty),
      ds.filter ro ty = ds.columns.filter (fun c =>
        (match ro with
         | none => true
         | some r => decide (lookupL ds.role c = some r)) &&
        (match ty with
         | none => true
         | some t => decide (lookupL ds.type c = some t))) := by
    intro ro ty
    unfold Dataset.filter
    dsimp only
    apply List.filter_congr
    intro c hc
    rw [Bool.decide_and]
    congr 1
    · cases ro with
      | none => simp [hc]
      | some r =>
        exact decide_eq_decide.mpr (mem_mask ds.columns ds.role hr hnd r c)
    · cases ty with
      | none => simp [hc]
      | some t =>
        exact decide_eq_decide.mpr (mem_mask ds.columns ds.type ht hnd t c)
  refine ⟨main role type, ?_⟩
  rw [main none none]
  simp

/-- Witness for C5 on a concrete two-column table. -/
theorem C5_witness :
    ((set_frame (Frame.mk 1
        [("id", Col.mk Dtype.int64 [some (Val.num 7)]),
         ("x", Col.mk Dtype.obj [some (Val.str "a")])])).filter
      (some Role.input) none =
      (set_frame (Frame.mk 1
        [("id", Col.mk Dtype.int64 [some (Val.num 7)]),
         ("x", Col.mk Dtype.obj [some (Val.str "a")])])).columns.filter
        (fun c =>
          (decide (lookupL (set_frame (Frame.mk 1
            [("id", Col.mk Dtype.int64 [some (Val.num 7)]),
             ("x", Col.mk Dtype.obj [some (Val.str "a")])])).role c
              = some Role.input)) && true)) ∧
    (set_frame (Frame.mk 1
        [("id", Col.mk Dtype.int64 [some (Val.num 7)]),
         ("x", Col.mk Dtype.obj [some (Val.str "a")])])).filter none none =
      (set_frame (Frame.mk 1
        [("id", Col.mk Dtype.int64 [some (Val.num 7)]),
         ("x", Col.mk Dtype.obj [some (Val.str "a")])])).columns :=
  C5_filter_semantics
    (set_frame (Frame.mk 1
      [("id", Col.mk Dtype.int64 [some (Val.num 7)]),
       ("x", Col.mk Dtype.obj [some (Val.str "a")])]))
    (by decide) (by decide) (by decide) (some Role.input) none

/-! ### C6: target derivation -/

theorem filter_target_none (ds : Dataset)
    (hr : ds.role.map Prod.fst = ds.columns) (hnd : ds.columns.Nodup)
    (r : Role) :
    ds.filter (some r) none =
      ds.columns.filter (fun c => decide (lookupL ds.role c = some r)) := by
  unfold Dataset.filter
  dsimp only
  apply List.filter_congr
  intro c hc
  rw [Bool.decide_and]
  have h2 : decide (c ∈ ds.columns) = true := decide_eq_true hc
  rw [h2, Bool.and_true]
  exact decide_eq_decide.mpr (mem_mask ds.columns ds.role hr hnd r c)

theorem head?_filter {α : Type} (p : α → Bool) (l : List α) :
    (l.filter p).head? = l.find? p := by
  induction l with
  | nil => rfl
  | cons a l ih =>
    by_cases h : p a <;> simp [List.filter_cons, List.find?_cons, h, ih]

/-- C6: the target derivation fails (with the no-target-column error, the
`IndexError` of `[0]` on an empty filter result) if and only if no column
currently has role `Target`; when at least one column has role `Target`
it returns the values of the first such column in column order, passed
through the categorical-to-numeric encoding `category2number`. -/
theorem C6_target_derivation (ds : Dataset)
    (hcols : ds.columns = ds.frame.names)
    (hr : ds.role.map Prod.fst = ds.columns)
    (hnd : ds.columns.Nodup) :
    (ds.get_target = .error DErr.noTargetColumn ↔
      ∀ p ∈ ds.role, p.2 ≠ Role.target) ∧
    (∀ n c,
      ds.columns.find?
          (fun m => decide (lookupL ds.role m = some Role.target)) = some n →
      ds.frame.lookupCol n = some c →
      ds.get_target = .ok (category2number c)) := by
  have hndr : (ds.role.map Prod.fst).Nodup := hr ▸ hnd
  have hiff : ds.filter (some Role.target) none = [] ↔
      ∀ p ∈ ds.role, p.2 ≠ Role.target := by
    rw [filter_target_none ds hr hnd]
    rw [List.filter_eq_nil_iff]
    constructor
    · intro h p hp he
      have hc : p.1 ∈ ds.columns := by
        rw [← hr]
        exact List.mem_map.2 ⟨p, hp, rfl⟩
      have hlk : lookupL ds.role p.1 = some Role.target := by
        apply (lookupL_eq_some_iff hndr p.1 Role.target).2
        have : p = (p.1, Role.target) := by
          rw [← he]
        exact this ▸ hp
      exact h p.1 hc (decide_eq_true hlk)
    · intro h c _ hdec
      have hlk := of_decide_eq_true hdec
      exact h (c, Role.target) (lookupL_mem hlk) rfl
  constructor
  · constructor
    · intro h
      apply hiff.1
      unfold Dataset.get_target at h
      cases hfil : ds.filter (some Role.target) none with
      | nil => rfl
      | cons a l =>
        rw [hfil] at h
        dsimp only at h
        cases hlook : ds.frame.lookupCol a <;> rw [hlook] at h <;>
          simp at h
    · intro h
      unfold Dataset.get_target
      rw [hiff.2 h]
  · intro n c hfind hlook
    have hhead : (ds.columns.filter
        (fun m => decide (lookupL ds.role m = some Role.target))).head?
          = some n := by
      rw [head?_filter]
      exact hfind
    unfold Dataset.get_target
    rw [filter_target_none ds hr hnd]
    cases hfil : ds.columns.filter
        (fun m => decide (lookupL ds.role m = some Role.target)) with
    | nil =>
      rw [hfil] at hhead
      cases hhead
    | cons a l =>
      rw [hfil] at hhead
      have ha : a = n := by
        simpa using hhead
      subst ha
      dsimp only
      rw [hlook]

/-- Witness for C6: a table whose `"target"` column is text-typed; the
derivation returns that column encoded to integer codes in
first-occurrence order. -/
theorem C6_witness :
    (set_frame (Frame.mk 2
      [("y", Col.mk Dtype.int64 [some (Val.num 1), some (Val.num 2)]),
       ("target", Col.mk Dtype.obj
         [some (Val.str "b"), some (Val.str "a")])])).get_target =
      .ok (category2number
        (Col.mk Dtype.obj [some (Val.str "b"), some (Val.str "a")])) :=
  (C6_target_derivation
    (set_frame (Frame.mk 2
      [("y", Col.mk Dtype.int64 [some (Val.num 1), some (Val.num 2)]),
       ("target", Col.mk Dtype.obj
         [some (Val.str "b"), some (Val.str "a")])]))
    (by decide) (by decide) (by decide)).2
    "target" (Col.mk Dtype.obj [some (Val.str "b"), some (Val.str "a")])
    (by decide) (by decide)

/-! ### C7: unsupported fillna methods -/

/-- C7 (counterexample): `fillna` with the unsupported method `'typo'` on
a concrete one-column table does not fail at all — it returns
successfully with the dataset unchanged, so the claim that it fails with
an unsupported-imputation-method error is false.  (The source has no
`else` branch raising an error: an unknown method name simply matches
neither `if` arm.) -/
theorem C7_counterexample :
    (set_frame (Frame.mk 2
        [("x", Col.mk Dtype.float64 [some (Val.num 1), none])])).fillna
      (some ["x"]) "typo" (fun f => f) =
      .ok (set_frame (Frame.mk 2
        [("x", Col.mk Dtype.float64 [some (Val.num 1), none])])) := rfl

/-- C7 (amended): calling `fillna` with a method name outside the
supported set (`'mean'`, `'mode'`, `'knn'`) raises no error and leaves
the table, the role map and the type map unchanged: the call is a silent
no-op. -/
theorem C7_unknown_method_noop (ds : Dataset) (cols : Option (List String))
    (method : String) (imputeKNN : Frame → Frame)
    (h1 : method ≠ "mean") (h2 : method ≠ "mode") (h3 : method ≠ "knn") :
    ds.fillna cols method imputeKNN = .ok ds := by
  unfold Dataset.fillna
  rw [if_neg, if_neg h3]
  rintro (h | h)
  · exact h1 h
  · exact h2 h

/-- Witness for C7 (amended) at `method = 'typo'`. -/
theorem C7_witness :
    ("typo" ≠ "mean" ∧ "typo" ≠ "mode" ∧ "typo" ≠ "knn") ∧
    (set_frame (Frame.mk 2
        [("x", Col.mk Dtype.float64 [some (Val.num 1), none])])).fillna
      none "typo" (fun f => f) =
      .ok (set_frame (Frame.mk 2
        [("x", Col.mk Dtype.float64 [some (Val.num 1), none])])) :=
  ⟨⟨by decide, by decide, by decide⟩,
    C7_unknown_method_noop
      (set_frame (Frame.mk 2
        [("x", Col.mk Dtype.float64 [some (Val.num 1), none])]))
      none "typo" (fun f => f) (by decide) (by decide) (by decide)⟩

/-! ### C8 and C10: mean/mode imputation -/

/-- C10: for every dataset, column selection and external imputer,
`fillna` with `method='mean'` and `fillna` with `method='mode'` produce
identical results — the source tests `method == 'mean' or method ==
'mode'` and then runs one shared loop that consults only the column's
type, so the two method names are interchangeable. -/
theorem C10_mean_mode_interchangeable (ds : Dataset)
    (cols : Option (List String)) (imputeKNN : Frame → Frame) :
    ds.fillna cols "mean" imputeKNN = ds.fillna cols "mode" imputeKNN := by
  unfold Dataset.fillna
  rw [if_pos (Or.inl rfl), if_pos (Or.inr rfl)]

/-- The fill value the mean/mode loop computes for a column: the
arithmetic mean for type `NUMBER`, the head of the `value_counts` index
(most frequent value, ties broken by first occurrence) for type
`CATEGORY`. -/
def meanModeValue (t : Ty) (c : Col) : Option Val :=
  match t with
  | Ty.number => (colMean c).map Val.num
  | Ty.category => ((value_counts c).head?).map Prod.fst

theorem find?_overwrite (l : List (String × Col)) (n : String) (c : Col)
    (h : n ∈ l.map Prod.fst) :
    (l.map (fun p => if p.1 = n then (n, c) else p)).find?
        (fun p => p.1 == n) = some (n, c) := by
  induction l with
  | nil => simp at h
  | cons p l ih =>
    by_cases hp : p.1 = n
    · simp [List.find?_cons, hp]
    · have hmem : n ∈ l.map Prod.fst := by
        rw [List.map_cons] at h
        rcases List.mem_cons.1 h with h1 | h1
        · exact absurd h1.symm hp
        · exact h1
      have hb : (p.1 == n) = false := by simp [hp]
      simp only [List.map_cons, if_neg hp, List.find?_cons, hb]
      exact ih hmem

theorem find?_overwrite_ne (l : List (String × Col)) (n m : String) (c : Col)
    (hne : m ≠ n) :
    (l.map (fun p => if p.1 = n then (n, c) else p)).find?
        (fun p => p.1 == m) = l.find? (fun p => p.1 == m) := by
  induction l with
  | nil => rfl
  | cons p l ih =>
    have hnm : ¬n = m := fun hh => hne hh.symm
    by_cases hp : p.1 = n
    · have hb1 : (n == m) = false := by simp [hnm]
      have hb2 : (p.1 == m) = false := by simp [hp, hnm]
      simp only [List.map_cons, if_pos hp, List.find?_cons, hb1, hb2]
      exact ih
    · by_cases hm : p.1 = m
      · have hb : (p.1 == m) = true := by simp [hm]
        simp only [List.map_cons, if_neg hp, List.find?_cons, hb]
      · have hb : (p.1 == m) = false := by simp [hm]
        simp only [List.map_cons, if_neg hp, List.find?_cons, hb]
        exact ih

theorem lookupCol_setCol_self (f : Frame) (n : String) (c : Col) :
    (f.setCol n c).lookupCol n = some c := by
  unfold Frame.setCol Frame.lookupCol
  by_cases h : n ∈ f.names
  · rw [if_pos h]
    dsimp only
    rw [find?_overwrite f.cols n c h]
    rfl
  · rw [if_neg h]
    dsimp only
    rw [List.find?_append]
    have hnone : f.cols.find? (fun p => p.1 == n) = none := by
      rw [List.find?_eq_none]
      intro p hp hbe
      have : p.1 = n := by simpa using hbe
      exact h (this ▸ List.mem_map.2 ⟨p, hp, rfl⟩)
    rw [hnone]
    simp [List.find?_cons]

theorem lookupCol_setCol_ne (f : Frame) (n m : String) (c : Col)
    (hne : m ≠ n) : (f.setCol n c).lookupCol m = f.lookupCol m := by
  unfold Frame.setCol Frame.lookupCol
  by_cases h : n ∈ f.names
  · rw [if_pos h]
    dsimp only
    rw [find?_overwrite_ne f.cols n m c hne]
  · rw [if_neg h]
    dsimp only
    rw [List.find?_append]
    have hnm : ¬n = m := fun hh => hne hh.symm
    have hb : (n == m) = false := by simp [hnm]
    cases hf : f.cols.find? (fun p => p.1 == m) <;>
      simp [hf, List.find?_cons, hb]

theorem meanModeStep_ok_ne {type : List (String × Ty)} {f f' : Frame}
    {col : String} (h : meanModeStep type f col = .ok f') (m : String)
    (hne : m ≠ col) : f'.lookupCol m = f.lookupCol m := by
  unfold meanModeStep at h
  cases h1 : lookupL type col <;> rw [h1] at h <;> dsimp only at h
  · cases h
  · cases h2 : f.lookupCol col <;> rw [h2] at h <;> dsimp only at h
    · cases h
    · rename_i t c
      cases t <;> dsimp only at h
      · cases h3 : colMean c <;> rw [h3] at h <;> injection h with h4 <;>
          rw [← h4] <;> exact lookupCol_setCol_ne f col m _ hne
      · cases h3 : (value_counts c).head? <;> rw [h3] at h
        · cases h
        · injection h with h4
          rw [← h4]
          exact lookupCol_setCol_ne f col m _ hne

theorem foldlM_meanMode_ne (type : List (String × Ty)) :
    ∀ (cols : List String) (f f' : Frame) (m : String),
      m ∉ cols → cols.foldlM (meanModeStep type) f = .ok f' →
      f'.lookupCol m = f.lookupCol m := by
  intro cols
  induction cols with
  | nil =>
    intro f f' m _ h
    injection h with h
    rw [h]
  | cons a l ih =>
    intro f f' m hm h
    rw [List.foldlM_cons] at h
    cases h1 : meanModeStep type f a <;> rw [h1] at h
    · cases h
    · rename_i f1
      have h' : l.foldlM (meanModeStep type) f1 = .ok f' := h
      rw [ih f1 f' m (fun hx => hm (List.mem_cons_of_mem _ hx)) h']
      exact meanModeStep_ok_ne h1 m (fun he => hm (he ▸ List.mem_cons_self a l))

theorem foldlM_meanMode_fill (type : List (String × Ty)) :
    ∀ (cols : List String) (f f' : Frame),
      cols.Nodup → cols.foldlM (meanModeStep type) f = .ok f' →
      ∀ n ∈ cols, ∀ c, f.lookupCol n = some c →
        ∀ t, lookupL type n = some t →
          ∀ v, meanModeValue t c = some v →
            f'.lookupCol n = some (fillCol c v) := by
  intro cols
  induction cols with
  | nil =>
    intro f f' _ _ n hn
    simp at hn
  | cons a l ih =>
    intro f f' hnd h n hn c hc t ht v hv
    rw [List.foldlM_cons] at h
    cases h1 : meanModeStep type f a <;> rw [h1] at h
    · cases h
    · rename_i f1
      have h' : l.foldlM (meanModeStep type) f1 = .ok f' := h
      rcases List.mem_cons.1 hn with rfl | hnl
      · have hf1 : f1 = f.setCol n (fillCol c v) := by
          unfold meanModeStep at h1
          rw [ht, hc] at h1
          dsimp only at h1
          cases t <;> dsimp only at h1
          · unfold meanModeValue at hv
            cases hm : colMean c <;> rw [hm] at hv h1 <;> dsimp only at h1
            · cases hv
            · have hv' : v = Val.num _ := ((Option.some.injEq _ _).mp hv).symm
              injection h1 with h1
              rw [← h1, hv']
          · unfold meanModeValue at hv
            cases hm : (value_counts c).head? <;> rw [hm] at hv h1 <;>
              dsimp only at h1
            · cases hv
            · have hv' : v = Prod.fst _ := ((Option.some.injEq _ _).mp hv).symm
              injection h1 with h1
              rw [← h1, hv']
        have hnotl : n ∉ l := (List.nodup_cons.1 hnd).1
        rw [foldlM_meanMode_ne type l f1 f' n hnotl h', hf1]
        exact lookupCol_setCol_self f n (fillCol c v)
      · have hne : n ≠ a := by
          intro he
          exact (List.nodup_cons.1 hnd).1 (he ▸ hnl)
        have hc1 : f1.lookupCol n = some c := by
          rw [meanModeStep_ok_ne h1 n hne]
          exact hc
        exact ih f1 f' (List.nodup_cons.1 hnd).2 h' n hnl c hc1 t ht v hv

/-- C8: `fillna` with the mean-or-mode method, for each selected column
not classified `Rejected`, replaces every missing entry with the column's
arithmetic mean when the column's type is `NUMBER`, or with the most
frequent observed value (ties broken by first-occurrence order) when the
type is `CATEGORY`, leaving non-missing entries unchanged (`fillCol`
maps missing cells to the fill value and keeps present cells). -/
theorem C8_mean_mode_fill (ds : Dataset) (cols : List String) (ds' : Dataset)
    (imputeKNN : Frame → Frame) (hnd : cols.Nodup)
    (hrun : ds.fillna (some cols) "mean" imputeKNN = .ok ds')
    (n : String) (hn : n ∈ cols)
    (c : Col) (hc : ds.frame.lookupCol n = some c)
    (t : Ty) (ht : lookupL ds.type n = some t)
    (hrole : lookupL ds.role n ≠ some Role.rejected)
    (v : Val) (hv : meanModeValue t c = some v) :
    ds'.frame.lookupCol n = some (fillCol c v) := by
  unfold Dataset.fillna at hrun
  rw [if_pos (Or.inl rfl)] at hrun
  simp only [Option.getD_some] at hrun
  cases hfold : cols.foldlM (meanModeStep ds.type) ds.frame <;>
    rw [hfold] at hrun
  · cases hrun
  · rename_i f'
    have hds' : ds' = { ds with frame := f' } := by
      simp only [Except.map] at hrun
      exact ((Except.ok.injEq _ _).mp hrun).symm
    rw [hds']
    exact foldlM_meanMode_fill ds.type cols ds.frame f' hnd hfold n hn c hc
      t ht v hv

/-- Witness for C8: the spec's scenario — a `NUMBER` column `[1, missing,
3]` has its missing entry replaced by the mean `2.0`. -/
theorem C8_witness :
    (set_frame (Frame.mk 3
        [("x", Col.mk Dtype.float64
          [some (Val.num 1), none, some (Val.num 3)])])).fillna
      (some ["x"]) "mean" (fun f => f) =
      .ok { set_frame (Frame.mk 3
          [("x", Col.mk Dtype.float64
            [some (Val.num 1), none, some (Val.num 3)])]) with
        frame := Frame.mk 3
          [("x", Col.mk Dtype.float64
            [some (Val.num 1), some (Val.num 2), some (Val.num 3)])] } ∧
    ({ set_frame (Frame.mk 3
        [("x", Col.mk Dtype.float64
          [some (Val.num 1), none, some (Val.num 3)])]) with
      frame := Frame.mk 3
        [("x", Col.mk Dtype.float64
          [some (Val.num 1), some (Val.num 2), some (Val.num 3)])] } :
        Dataset).frame.lookupCol "x" =
      some (fillCol (Col.mk Dtype.float64
        [some (Val.num 1), none, some (Val.num 3)]) (Val.num 2)) := by
  constructor
  · rfl
  · exact C8_mean_mode_fill
      (set_frame (Frame.mk 3
        [("x", Col.mk Dtype.float64
          [some (Val.num 1), none, some (Val.num 3)])]))
      ["x"]
      { set_frame (Frame.mk 3
          [("x", Col.mk Dtype.float64
            [some (Val.num 1), none, some (Val.num 3)])]) with
        frame := Frame.mk 3
          [("x", Col.mk Dtype.float64
            [some (Val.num 1), some (Val.num 2), some (Val.num 3)])] }
      (fun f => f) (by decide) rfl
      "x" (by decide)
      (Col.mk Dtype.float64 [some (Val.num 1), none, some (Val.num 3)])
      (by decide) Ty.number (by decide) (by decide) (Val.num 2) (by decide)

/-! ### C9: ascending and descending sorts are reverses on tie-free data -/

theorem seriesOrder_reverse {α : Type} [LinearOrder α]
    (l : List (String × α))
    (hd : l.Pairwise (fun a b => a.2 ≠ b.2)) :
    seriesOrder l true = (seriesOrder l false).reverse := by
  have hsymm : ∀ {x y : String × α}, x.2 ≠ y.2 → y.2 ≠ x.2 :=
    fun h => h.symm
  haveI hTA : IsTotal (String × α) (fun a b => a.2 ≤ b.2) :=
    ⟨fun a b => le_total a.2 b.2⟩
  haveI hRA : IsTrans (String × α) (fun a b => a.2 ≤ b.2) :=
    ⟨fun _ _ _ h1 h2 => le_trans h1 h2⟩
  haveI hTD : IsTotal (String × α) (fun a b => b.2 ≤ a.2) :=
    ⟨fun a b => le_total b.2 a.2⟩
  haveI hRD : IsTrans (String × α) (fun a b => b.2 ≤ a.2) :=
    ⟨fun _ _ _ h1 h2 => le_trans h2 h1⟩
  haveI hAS : IsAntisymm (String × α) (fun a b => a.2 < b.2) :=
    ⟨fun _ _ h1 h2 => (lt_asymm h1 h2).elim⟩
  show l.insertionSort (fun a b => a.2 ≤ b.2) =
    (l.insertionSort (fun a b => b.2 ≤ a.2)).reverse
  have permA : l.insertionSort (fun a b => a.2 ≤ b.2) ≈ l :=
    List.perm_insertionSort _ l
  have permD : l.insertionSort (fun a b => b.2 ≤ a.2) ≈ l :=
    List.perm_insertionSort _ l
  have neA : (l.insertionSort (fun a b => a.2 ≤ b.2)).Pairwise
      (fun a b => a.2 ≠ b.2) :=
    (List.Perm.pairwise_iff hsymm permA).2 hd
  have neD : (l.insertionSort (fun a b => b.2 ≤ a.2)).Pairwise
      (fun a b => a.2 ≠ b.2) :=
    (List.Perm.pairwise_iff hsymm permD).2 hd
  have sA : (l.insertionSort (fun a b => a.2 ≤ b.2)).Pairwise
      (fun a b => a.2 < b.2) :=
    ((List.sorted_insertionSort _ l).and neA).imp
      (fun h => lt_of_le_of_ne h.1 h.2)
  have sD : (l.insertionSort (fun a b => b.2 ≤ a.2)).Pairwise
      (fun a b => b.2 < a.2) :=
    ((List.sorted_insertionSort _ l).and neD).imp
      (fun h => lt_of_le_of_ne h.1 h.2.symm)
  have sDrev : ((l.insertionSort (fun a b => b.2 ≤ a.2)).reverse).Pairwise
      (fun a b => a.2 < b.2) :=
    List.pairwise_reverse.2 sD
  have perm : l.insertionSort (fun a b => a.2 ≤ b.2) ≈
      (l.insertionSort (fun a b => b.2 ≤ a.2)).reverse :=
    permA.trans (((l.insertionSort (fun a b => b.2 ≤ a.2)).reverse_perm).trans
      permD).symm
  exact List.eq_of_perm_of_sorted perm sA sDrev

/-- C9: for every table whose per-column missing ratios are pairwise
distinct, `percent_missing` with `ascending=True` is exactly the reverse
of `percent_missing` with `ascending=False`; the same holds for
`unique_values` when the per-column distinct-value counts are pairwise
distinct. -/
theorem C9_sort_reverse (f : Frame)
    (h1 : (percentMissingRaw f).Pairwise (fun a b => a.2 ≠ b.2))
    (h2 : (uniqueValuesRaw f).Pairwise (fun a b => a.2 ≠ b.2)) :
    percent_missing f true = (percent_missing f false).reverse ∧
    unique_values f true = (unique_values f false).reverse :=
  ⟨seriesOrder_reverse _ h1, seriesOrder_reverse _ h2⟩

/-- Witness for C9: two columns with missing ratios 0 and 1/2 and unique
counts 2 and 1. -/
theorem C9_witness :
    (percentMissingRaw (Frame.mk 2
        [("a", Col.mk Dtype.float64 [some (Val.num 1), some (Val.num 2)]),
         ("b", Col.mk Dtype.float64 [some (Val.num 1), none])])).Pairwise
      (fun a b => a.2 ≠ b.2) ∧
    percent_missing (Frame.mk 2
        [("a", Col.mk Dtype.float64 [some (Val.num 1), some (Val.num 2)]),
         ("b", Col.mk Dtype.float64 [some (Val.num 1), none])]) true =
      (percent_missing (Frame.mk 2
        [("a", Col.mk Dtype.float64 [some (Val.num 1), some (Val.num 2)]),
         ("b", Col.mk Dtype.float64 [some (Val.num 1), none])]) false).reverse ∧
    unique_values (Frame.mk 2
        [("a", Col.mk Dtype.float64 [some (Val.num 1), some (Val.num 2)]),
         ("b", Col.mk Dtype.float64 [some (Val.num 1), none])]) true =
      (unique_values (Frame.mk 2
        [("a", Col.mk Dtype.float64 [some (Val.num 1), some (Val.num 2)]),
         ("b", Col.mk Dtype.float64 [some (Val.num 1), none])]) false).reverse := by
  have h := C9_sort_reverse (Frame.mk 2
      [("a", Col.mk Dtype.float64 [some (Val.num 1), some (Val.num 2)]),
       ("b", Col.mk Dtype.float64 [some (Val.num 1), none])])
    (by decide) (by decide)
  exact ⟨by decide, h.1, h.2⟩

end Copper
